import Mathlib

/-!
Verification development for the `pwitab/ublox` driver
(`src/ublox/modules.py`, `src/ublox/socket.py`).

The driver exchanges AT commands with a u-blox SARA N211 / R4 cellular
module over a serial line.  We give a shallow embedding of the pure
protocol logic: a transport-level line is a list of characters (the
serial protocol is ASCII; a byte is represented by the character of the
same code, so Python byte indexing such as `urc[-1]` becomes the
character code of the last element).  Python exceptions are modelled
with `Except`; functions that in Python mutate the module object
instead pass an explicit `ModState`.  The wall clock is not modelled:
time-driven loops take the sequence of observations they would make,
and exhausting that sequence stands for "the loop is still running /
the next blocking read would time out".
-/

/-- A transport-level line: the bytes between line terminators.  The
protocol is ASCII, so we identify a byte with the character of that
code. -/
abbrev Line := List Char

/-- Character list of a string literal (used for the byte-string
literals of the Python source). -/
def chars (s : String) : Line := s.data

/-- The Python exceptions that the driver code can raise, plus the
builtin exceptions its expressions can produce. -/
inductive PyErr where
  /-- `ATError('Error on AT Command')`, raised on a terminal `ERROR` line. -/
  | atError
  /-- `ATTimeoutError`, raised when a read deadline elapses. -/
  | atTimeout
  /-- `ConnectionTimeoutError`, raised by `_await_connection`. -/
  | connTimeout
  /-- `CMEError`, raised when a `+CME ERROR` notification arrives. -/
  | cmeError
  /-- Builtin `ValueError` (failed `int()` / unpacking / explicit raise). -/
  | valueError
  /-- Builtin `TypeError` (e.g. unhashable dict key). -/
  | typeError
  /-- Builtin `IndexError` (subscript on an empty sequence). -/
  | indexError
  /-- Builtin `AttributeError` (attribute access on `None`). -/
  | attributeError
  /-- Builtin `KeyError` (deleting an absent dict key). -/
  | keyError
deriving DecidableEq

/-- The mutable fields of the module object that the notification
handlers of `SaraN211Module` touch (`__init__`, lines 55-79). -/
structure ModState where
  /-- `self.connected`, initially `False`. -/
  connected : Bool
  /-- `self.registration_status`, initially `0`. -/
  registration_status : Int
  /-- `self.ip`, initially `None`. -/
  ip : Option Line
  /-- `self.available_messages`, initially `[]`. -/
  available_messages : List Line
deriving DecidableEq

/-- The state of a freshly constructed module object. -/
def initState : ModState :=
  { connected := false, registration_status := 0, ip := none,
    available_messages := [] }

/-- `SaraN211Module._remove_line_ending`: strip a trailing CR-LF. -/
def remove_line_ending (line : Line) : Line :=
  if (chars "\r\n").isSuffixOf line then line.take (line.length - 2) else line

/-- Python substring containment `needle in hay` on byte strings. -/
def is_substr (needle : Line) : Line → Bool
  | [] => needle.isEmpty
  | c :: rest => needle.isPrefixOf (c :: rest) || is_substr needle rest

/-- The token `_urc[1:_urc.find(':')]` extracted in
`SaraN211Module._process_urc`: the text between the leading `+` and the
first `:`; when no colon is present, Python `find` returns `-1` and the
slice becomes `_urc[1:-1]`. -/
def urcId (urc : Line) : Line :=
  match urc.findIdx? (· == ':') with
  | some i => (urc.take i).drop 1
  | none => (urc.take (urc.length - 1)).drop 1

/-- The six characters `bytes.lstrip` removes (ASCII whitespace). -/
def is_py_space (c : Char) : Bool :=
  c == ' ' || c == '\t' || c == '\n' || c == '\r' || c == '\x0b' || c == '\x0c'

/-- `SaraN211Module._process_urc` together with the five callbacks it
dispatches to (lines 375-448).  Observed behaviour of each callback:

* `_update_connection_status_callback` runs `bool(int(urc[-1]))`; since
  `urc` is a byte string, `urc[-1]` is the *byte value* of the last
  character, so the flag is true whenever that byte is nonzero.
* `_update_eps_reg_status_callback` runs `int(chr(urc[-1]))`, which
  parses the last character as a decimal digit and raises `ValueError`
  otherwise.
* `_update_ip_address_callback` stores `_urc[(_urc.find('"') + 1):-1]`.
* `_add_available_message_callback` runs `_urc, data = urc.split(b':')`,
  which raises `ValueError` unless the split yields exactly two parts,
  then appends `data.lstrip()`.
* `_handle_cme_error` raises `CMEError`. -/
def process_urc (st : ModState) (urc : Line) : Except PyErr ModState :=
  let id := urcId urc
  if id == chars "CSCON" then
    match urc.getLast? with
    | some c => .ok { st with connected := c.toNat != 0 }
    | none => .error .indexError
  else if id == chars "CEREG" then
    match urc.getLast? with
    | some c =>
        if c.isDigit then
          .ok { st with registration_status := (c.toNat : Int) - 48 }
        else .error .valueError
    | none => .error .indexError
  else if id == chars "CGPADDR" then
    let start := match urc.findIdx? (· == '"') with
      | some i => i + 1
      | none => 0
    .ok { st with ip := some ((urc.take (urc.length - 1)).drop start) }
  else if id == chars "NSONMI" then
    match urc.splitOn ':' with
    | [_, data] =>
        .ok { st with available_messages :=
                st.available_messages ++ [data.dropWhile is_py_space] }
    | _ => .error .valueError
  else if id == chars "CME ERROR" then .error .cmeError
  else .ok st

/-- Whether `_process_urc` raises on this line (this does not depend on
the module state, only on the shape of the line). -/
def urc_raises (urc : Line) : Bool :=
  let id := urcId urc
  (id == chars "CSCON" && urc.getLast?.isNone) ||
  (id == chars "CEREG" && !(urc.getLast?.elim false Char.isDigit)) ||
  (id == chars "NSONMI" && (urc.splitOn ':').length != 2) ||
  (id == chars "CME ERROR")

/-- When `urc_raises` is false, `_process_urc` returns normally. -/
theorem process_urc_ok (st : ModState) (urc : Line)
    (h : urc_raises urc = false) : ∃ st2, process_urc st urc = .ok st2 := by
  unfold urc_raises at h
  simp only [Bool.or_eq_false_iff, Bool.and_eq_false_iff] at h
  obtain ⟨⟨⟨h1, h2⟩, h3⟩, h4⟩ := h
  by_cases hc : urcId urc == chars "CSCON"
  · rcases h1 with h1 | h1
    · simp [hc] at h1
    · match hlast : urc.getLast? with
      | some c =>
          refine ⟨{ st with connected := c.toNat != 0 }, ?_⟩
          unfold process_urc
          simp [hc, hlast]
      | none => simp [hlast, Option.isNone] at h1
  · by_cases he : urcId urc == chars "CEREG"
    · rcases h2 with h2 | h2
      · simp [he] at h2
      · match hlast : urc.getLast? with
        | some c =>
            simp only [hlast, Option.elim] at h2
            have h2d : c.isDigit = true := by
              cases hd : c.isDigit
              · rw [hd] at h2; simp at h2
              · rfl
            refine ⟨{ st with registration_status := (c.toNat : Int) - 48 }, ?_⟩
            unfold process_urc
            simp [hc, he, hlast, h2d]
        | none => simp [hlast, Option.elim] at h2
    · by_cases hg : urcId urc == chars "CGPADDR"
      · refine ⟨{ st with ip := some ((urc.take (urc.length - 1)).drop
          (match urc.findIdx? (· == '"') with | some i => i + 1 | none => 0)) }, ?_⟩
        unfold process_urc
        simp [hc, he, hg]
      · by_cases hn : urcId urc == chars "NSONMI"
        · rcases h3 with h3 | h3
          · simp [hn] at h3
          · simp only [bne_eq_false_iff_eq] at h3
            match hs : urc.splitOn ':' with
            | [a, b] =>
                refine ⟨{ st with available_messages :=
                  st.available_messages ++ [b.dropWhile is_py_space] }, ?_⟩
                unfold process_urc
                simp [hc, he, hg, hn, hs]
            | [] => rw [hs] at h3; simp at h3
            | [a] => rw [hs] at h3; simp at h3
            | a :: b :: c :: rest => rw [hs] at h3; simp at h3
        · have hm : (urcId urc == chars "CME ERROR") = false := h4
          refine ⟨st, ?_⟩
          unfold process_urc
          simp [hc, he, hg, hn, hm]

/-- `SaraN211Module._read_line_until_contains` (lines 315-366), the
read loop of the command/response correlator.  The list argument is
the sequence of lines the transport yields, already stripped by
`_read_at_line`/`_remove_line_ending` in the sense that each element is
one `\r\n`-terminated read; `remove_line_ending` is applied to each,
as in the source.  `acc` is `irc_list`.  Exhausting the transport
sequence stands for a blocked `_read_at_line`, which raises
`ATTimeoutError`; the wall-clock check `duration > timeout` is not
modelled (time is not part of the embedding).  Each line is classified
exactly as in the source: a `+` line is captured or dispatched to
`_process_urc`; a line equal to `OK` passes; a line starting with
`ERROR` raises `ATError`; an empty line passes; anything else is an
IRC.  After classification, a line containing `slice` breaks the loop
and the collected IRC list is returned. -/
def read_line_until_contains (slice : Line) (captureUrc : Bool) :
    List Line → ModState → List Line → Except PyErr (List Line × ModState)
  | [], _, _ => .error .atTimeout
  | data :: rest, st, acc =>
    let line := remove_line_ending data
    if (chars "+").isPrefixOf line then
      if captureUrc then
        if is_substr slice line then .ok (acc ++ [line], st)
        else read_line_until_contains slice captureUrc rest st (acc ++ [line])
      else
        match process_urc st line with
        | .error e => .error e
        | .ok st2 =>
          if is_substr slice line then .ok (acc, st2)
          else read_line_until_contains slice captureUrc rest st2 acc
    else if line == chars "OK" then
      if is_substr slice line then .ok (acc, st)
      else read_line_until_contains slice captureUrc rest st acc
    else if (chars "ERROR").isPrefixOf line then .error .atError
    else if line == chars "" then
      if is_substr slice line then .ok (acc, st)
      else read_line_until_contains slice captureUrc rest st acc
    else
      if is_substr slice line then .ok (acc ++ [line], st)
      else read_line_until_contains slice captureUrc rest st (acc ++ [line])

/-- `SaraN211Module._at_action` (lines 235-249): write the command,
then collect IRCs until a line containing `OK` arrives.  The write and
acknowledgement phase (`_write`) is outside this model; the line list
is what the transport yields after the acknowledgement. -/
def at_action (st : ModState) (captureUrc : Bool) (lines : List Line) :
    Except PyErr (List Line × ModState) :=
  read_line_until_contains (chars "OK") captureUrc lines st []

/-- A line on which the read loop of `_read_line_until_contains`
(waiting for `OK`, with notifications dispatched) stops making
progress: it contains the terminal substring `OK`, or it starts with
`ERROR` (terminal failure), or it is a notification whose processing
raises (`+CME ERROR`, or a malformed `+CEREG`/`+NSONMI` payload). -/
def terminal_line (line : Line) : Bool :=
  is_substr (chars "OK") line ||
  (chars "ERROR").isPrefixOf line ||
  ((chars "+").isPrefixOf line && urc_raises line)

/-- Lines kept as IRCs by the read loop: non-empty and not starting
with `+`. -/
def irc_keep (line : Line) : Bool :=
  !line.isEmpty && !(chars "+").isPrefixOf line

/-- Read-loop run over `pre ++ [last]` where `last` strips to `OK` and
every earlier line is non-terminal: the loop returns the accumulated
IRCs plus exactly the kept (non-empty, non-`+`) stripped lines of
`pre`, in order. -/
theorem rluc_ok_of_nonterminal (pre : List Line) :
    ∀ (st : ModState) (acc : List Line) (last : Line),
    remove_line_ending last = chars "OK" →
    (∀ l ∈ pre, terminal_line (remove_line_ending l) = false) →
    ∃ st2, read_line_until_contains (chars "OK") false (pre ++ [last]) st acc =
      .ok (acc ++ (pre.map remove_line_ending).filter irc_keep, st2) := by
  induction pre with
  | nil =>
    intro st acc last hlast _
    refine ⟨st, ?_⟩
    simp only [List.nil_append, List.map_nil, List.filter_nil, List.append_nil]
    simp only [read_line_until_contains]
    rw [hlast]
    rfl
  | cons l pre ih =>
    intro st acc last hlast hpre
    have hl := hpre l (by simp)
    have hpre2 : ∀ x ∈ pre, terminal_line (remove_line_ending x) = false :=
      fun x hx => hpre x (by simp [hx])
    unfold terminal_line at hl
    simp only [Bool.or_eq_false_iff, Bool.and_eq_false_iff] at hl
    obtain ⟨⟨hok, herr⟩, hplus⟩ := hl
    rw [List.cons_append]
    by_cases hp : (chars "+").isPrefixOf (remove_line_ending l) = true
    · have hur : urc_raises (remove_line_ending l) = false := by
        rcases hplus with h | h
        · rw [hp] at h; cases h
        · exact h
      obtain ⟨st2, hst2⟩ := process_urc_ok st (remove_line_ending l) hur
      obtain ⟨st3, hst3⟩ := ih st2 acc last hlast hpre2
      refine ⟨st3, ?_⟩
      have hkeep : irc_keep (remove_line_ending l) = false := by
        simp [irc_keep, hp]
      simp only [read_line_until_contains]
      simp only [hp, hst2, hok, if_true, if_false, Bool.false_eq_true, ite_false]
      simp only [List.map_cons, List.filter_cons, hkeep]
      exact hst3
    · have hp2 : (chars "+").isPrefixOf (remove_line_ending l) = false := by
        cases hb : (chars "+").isPrefixOf (remove_line_ending l)
        · rfl
        · exact absurd hb hp
      have hoke : (remove_line_ending l == chars "OK") = false := by
        cases hb : remove_line_ending l == chars "OK"
        · rfl
        · exfalso
          have heq : remove_line_ending l = chars "OK" := by
            exact eq_of_beq hb
          rw [heq] at hok
          exact absurd hok (by decide)
      by_cases hemp : (remove_line_ending l == chars "") = true
      · have heq : remove_line_ending l = [] := eq_of_beq hemp
        obtain ⟨st3, hst3⟩ := ih st acc last hlast hpre2
        refine ⟨st3, ?_⟩
        have hkeep : irc_keep (remove_line_ending l) = false := by
          simp [irc_keep, heq]
        simp only [read_line_until_contains]
        simp only [hp2, hoke, herr, hemp, hok, if_true, if_false,
          Bool.false_eq_true, ite_false]
        simp only [List.map_cons, List.filter_cons, hkeep]
        exact hst3
      · have hemp2 : (remove_line_ending l == chars "") = false := by
          cases hb : remove_line_ending l == chars ""
          · rfl
          · exact absurd hb hemp
        have hkeep : irc_keep (remove_line_ending l) = true := by
          have hne : (remove_line_ending l).isEmpty = false := by
            cases hb : (remove_line_ending l).isEmpty
            · rfl
            · exfalso
              have : remove_line_ending l = [] := List.isEmpty_iff.mp hb
              rw [this] at hemp2
              exact absurd hemp2 (by decide)
          simp [irc_keep, hne, hp2]
        obtain ⟨st3, hst3⟩ := ih st (acc ++ [remove_line_ending l]) last hlast hpre2
        refine ⟨st3, ?_⟩
        simp only [read_line_until_contains]
        simp only [hp2, hoke, herr, hemp2, hok, if_true, if_false,
          Bool.false_eq_true, ite_false]
        simp only [List.map_cons, List.filter_cons, hkeep]
        rw [hst3]
        simp [List.append_assoc]

/-- C1. For every command executed through the correlator with
notifications not captured as IRCs (`capture_urc=False`): if the
transport yields a sequence of lines whose last line strips to `OK`
and no earlier line is terminal (terminal in the sense of
`terminal_line`: it ends command processing, by containing `OK`, by
starting with `ERROR`, or by being a notification whose processing
raises), then `_at_action` returns exactly the non-empty lines that do
not start with `+`, in arrival order, with the `OK` line itself
excluded from the result. -/
theorem execute_ok_returns_clean_ircs (pre : List Line) (last : Line)
    (st : ModState)
    (hlast : remove_line_ending last = chars "OK")
    (hpre : ∀ l ∈ pre, terminal_line (remove_line_ending l) = false) :
    ∃ st2, at_action st false (pre ++ [last]) =
      .ok ((pre.map remove_line_ending).filter irc_keep, st2) := by
  simpa [at_action] using rluc_ok_of_nonterminal pre st [] last hlast hpre

/-- Witness for C1 at a concrete exchange: two IRC lines, one
notification and one empty line before the terminal `OK`. -/
theorem execute_ok_returns_clean_ircs_witness :
    (remove_line_ending (chars "OK\r\n") = chars "OK") ∧
    (∀ l ∈ [chars "ABCD", chars "+CSCON: 1", chars "", chars "XY"],
      terminal_line (remove_line_ending l) = false) ∧
    ∃ st2, at_action initState false
        ([chars "ABCD", chars "+CSCON: 1", chars "", chars "XY"] ++
          [chars "OK\r\n"]) =
      .ok ([chars "ABCD", chars "XY"], st2) := by
  refine ⟨by decide, by decide, ?_⟩
  obtain ⟨st2, h2⟩ := execute_ok_returns_clean_ircs
    [chars "ABCD", chars "+CSCON: 1", chars "", chars "XY"]
    (chars "OK\r\n") initState (by decide) (by decide)
  exact ⟨st2, h2.trans (congrArg (fun x => Except.ok (x, st2)) (by decide))⟩

/-- Read-loop run over `pre ++ e :: rest` where every line of `pre` is
non-terminal and `e` strips to a line starting with `ERROR`: the loop
raises `ATError`, independently of the capture flag and of anything
after `e`. -/
theorem rluc_error_aux (pre : List Line) :
    ∀ (st : ModState) (acc : List Line) (e : Line) (rest : List Line)
      (cap : Bool),
    (chars "ERROR").isPrefixOf (remove_line_ending e) = true →
    (∀ l ∈ pre, terminal_line (remove_line_ending l) = false) →
    read_line_until_contains (chars "OK") cap (pre ++ e :: rest) st acc =
      .error .atError := by
  induction pre with
  | nil =>
    intro st acc e rest cap he _
    obtain ⟨t, ht⟩ := List.isPrefixOf_iff_prefix.mp he
    simp only [List.nil_append]
    simp only [read_line_until_contains]
    rw [← ht]
    have h1 : List.isPrefixOf (chars "+") (chars "ERROR" ++ t) = false := rfl
    have h2 : (chars "ERROR" ++ t == chars "OK") = false := rfl
    have h3 : List.isPrefixOf (chars "ERROR") (chars "ERROR" ++ t) = true := by
      simp
    simp [h1, h2, h3]
  | cons l pre ih =>
    intro st acc e rest cap he hpre
    have hl := hpre l (by simp)
    have hpre2 : ∀ x ∈ pre, terminal_line (remove_line_ending x) = false :=
      fun x hx => hpre x (by simp [hx])
    unfold terminal_line at hl
    simp only [Bool.or_eq_false_iff, Bool.and_eq_false_iff] at hl
    obtain ⟨⟨hok, herr⟩, hplus⟩ := hl
    rw [List.cons_append]
    by_cases hp : (chars "+").isPrefixOf (remove_line_ending l) = true
    · cases cap with
      | true =>
        simp only [read_line_until_contains]
        simp only [hp, hok, if_true, if_false]
        exact ih st (acc ++ [remove_line_ending l]) e rest true he hpre2
      | false =>
        have hur : urc_raises (remove_line_ending l) = false := by
          rcases hplus with h | h
          · rw [hp] at h; cases h
          · exact h
        obtain ⟨st2, hst2⟩ := process_urc_ok st (remove_line_ending l) hur
        simp only [read_line_until_contains]
        simp only [hp, hst2, hok, if_true, if_false, Bool.false_eq_true,
          ite_false]
        exact ih st2 acc e rest false he hpre2
    · have hp2 : (chars "+").isPrefixOf (remove_line_ending l) = false := by
        cases hb : (chars "+").isPrefixOf (remove_line_ending l)
        · rfl
        · exact absurd hb hp
      have hoke : (remove_line_ending l == chars "OK") = false := by
        cases hb : remove_line_ending l == chars "OK"
        · rfl
        · exfalso
          rw [eq_of_beq hb] at hok
          exact absurd hok (by decide)
      by_cases hemp : (remove_line_ending l == chars "") = true
      · simp only [read_line_until_contains]
        simp only [hp2, hoke, herr, hemp, hok, if_true, if_false,
          Bool.false_eq_true, ite_false]
        exact ih st acc e rest cap he hpre2
      · have hemp2 : (remove_line_ending l == chars "") = false := by
          cases hb : remove_line_ending l == chars ""
          · rfl
          · exact absurd hb hemp
        simp only [read_line_until_contains]
        simp only [hp2, hoke, herr, hemp2, hok, if_true, if_false,
          Bool.false_eq_true, ite_false]
        exact ih st (acc ++ [remove_line_ending l]) e rest cap he hpre2

/-- C2. For every command executed through the correlator: if a line
starting with `ERROR` is read before any terminal line, `_at_action`
raises `ATError` (modelled as `.error .atError`), so no partial list
of intermediate responses is returned. -/
theorem execute_error_raises_at_error (pre : List Line) (e : Line)
    (rest : List Line) (st : ModState) (cap : Bool)
    (he : (chars "ERROR").isPrefixOf (remove_line_ending e) = true)
    (hpre : ∀ l ∈ pre, terminal_line (remove_line_ending l) = false) :
    at_action st cap (pre ++ e :: rest) = .error .atError := by
  simpa [at_action] using rluc_error_aux pre st [] e rest cap he hpre

/-- Witness for C2 at a concrete exchange: one IRC line and one
notification precede the `ERROR` line. -/
theorem execute_error_raises_at_error_witness :
    ((chars "ERROR").isPrefixOf (remove_line_ending (chars "ERROR\r\n")) = true) ∧
    (∀ l ∈ [chars "A1", chars "+CEREG: 5"],
      terminal_line (remove_line_ending l) = false) ∧
    at_action initState false
      ([chars "A1", chars "+CEREG: 5"] ++ chars "ERROR\r\n" :: [chars "junk"]) =
      .error .atError := by
  exact ⟨by decide, by decide,
    execute_error_raises_at_error [chars "A1", chars "+CEREG: 5"]
      (chars "ERROR\r\n") [chars "junk"] initState false (by decide) (by decide)⟩

/-- C3, evaluated at the failing input.  `+CSCON: 1` sets the
connectivity flag to true and is excluded from the IRC list, as the
claim says; but `+CSCON: 0` ALSO sets it to true, because
`_update_connection_status_callback` computes `bool(int(urc[-1]))` on a
byte string, where `urc[-1]` is the byte value 48 of the character `0`,
not the digit it spells.  The claim (and the callback docstring) say
the flag must become false. -/
theorem cscon_zero_urc_sets_connected_true :
    at_action initState false [chars "+CSCON: 0", chars "OK"] =
      .ok ([], { initState with connected := true }) ∧
    at_action initState false [chars "+CSCON: 1", chars "OK"] =
      .ok ([], { initState with connected := true }) := by
  constructor
  · rfl
  · rfl

/-- Outcome of the poll loop in `SaraR4Module._await_connection`. -/
inductive AwaitResult where
  /-- The loop hit a `break`: the module is registered. -/
  | registered
  /-- The supplied poll sequence was exhausted with the loop still
  running (the code would keep polling). -/
  | stillPolling
deriving DecidableEq

/-- `SaraR4Module._await_connection` (lines 688-711).  Each element of
the poll list is the transport reply to one `AT+CEREG?` poll (read and
dispatched through `_at_action`, which updates
`registration_status`) paired with the value `time.time() - start_time`
would have at the loop tail.  The loop body mirrors the source: on
status `0` it runs `continue` (skipping the timeout check), on a
matching status it breaks, and only otherwise does it compare the
elapsed time against `timeout` and raise `ConnectionTimeoutError`. -/
def await_connection_r4 (roaming : Bool) (timeout : Nat) (st : ModState) :
    List (List Line × Nat) → Except PyErr AwaitResult
  | [] => .ok .stillPolling
  | (lines, elapsed) :: rest =>
    match at_action st false lines with
    | .error e => .error e
    | .ok (_, st2) =>
      if st2.registration_status == 0 then
        await_connection_r4 roaming timeout st2 rest
      else if roaming && (st2.registration_status == 5) then .ok .registered
      else if !roaming && (st2.registration_status == 1) then .ok .registered
      else if elapsed > timeout then .error .connTimeout
      else await_connection_r4 roaming timeout st2 rest

/-- C4, evaluated on the two scenarios of the claim with roaming
disabled and the default budget of 180.  First half (holds): polls
observing registration status `0, 0, 1` reach the registered state.
Second half (fails): when the status never leaves `0`, the `continue`
in the loop body skips the elapsed-time check, so even polls far past
the 180-unit budget never raise `ConnectionTimeoutError` — the loop
just keeps polling, where the claim demands a connection-timeout
failure. -/
theorem await_connection_r4_poll_scenarios :
    await_connection_r4 false 180 initState
      [([chars "+CEREG: 0", chars "OK"], 2),
       ([chars "+CEREG: 0", chars "OK"], 4),
       ([chars "+CEREG: 1", chars "OK"], 6)] = .ok .registered ∧
    await_connection_r4 false 180 initState
      [([chars "+CEREG: 0", chars "OK"], 1000),
       ([chars "+CEREG: 0", chars "OK"], 100000),
       ([chars "+CEREG: 0", chars "OK"], 10000000)] = .ok .stillPolling := by
  constructor
  · rfl
  · rfl

/-- As long as every poll reads a `+CEREG: 0` reply (registration
status stays `0`), the loop of `SaraR4Module._await_connection` never
raises `ConnectionTimeoutError`, whatever the elapsed times are and
however many polls happen: the `continue` branch bypasses the timeout
check.  General form of the second half of
`await_connection_r4_poll_scenarios`. -/
theorem await_connection_r4_never_times_out_on_zero
    (roaming : Bool) (timeout : Nat) :
    ∀ (els : List Nat) (st : ModState),
    await_connection_r4 roaming timeout st
      (els.map (fun e => ([chars "+CEREG: 0", chars "OK"], e))) =
      .ok .stillPolling := by
  intro els
  induction els with
  | nil => intro st; rfl
  | cons e els ih =>
    intro st
    have h : at_action st false [chars "+CEREG: 0", chars "OK"] =
        .ok ([], { st with registration_status := 0 }) := rfl
    simp only [List.map_cons, await_connection_r4, h]
    simpa using ih { st with registration_status := 0 }

/-- A Python value used as a key of the `self.sockets` dict.  On the
R4 variant `_create_upd_socket` stores an `int`; on the N211 variant it
stores the raw result of `_at_action`, which is a Python `list` of
lines — and a list is unhashable. -/
inductive PyKey where
  /-- An `int` socket id. -/
  | int (n : Int)
  /-- A `list` of lines (the direct return value of `_at_action`). -/
  | list (ls : List Line)
deriving DecidableEq

/-- Whether the key is hashable (usable as a dict key).  Python lists
are not. -/
def pykey_hashable : PyKey → Bool
  | .int _ => true
  | .list _ => false

/-- The socket object registered in `self.sockets`
(`UbloxSocket.__init__` in `src/ublox/socket.py`). -/
structure USocket where
  /-- `self.socket_id`. -/
  socket_id : PyKey
  /-- `self.source_port`. -/
  source_port : Option Nat
  /-- `self.able_to_receive`, initially `False`. -/
  able_to_receive : Bool
deriving DecidableEq

/-- The module socket table `self.sockets`, as an association list
with distinct keys. -/
abbrev SockTable := List (PyKey × USocket)

/-- `d[k] = v` on the socket dict: raises `TypeError` when the key is
unhashable (a Python list); otherwise replaces or appends. -/
def dict_set (d : SockTable) (k : PyKey) (v : USocket) :
    Except PyErr SockTable :=
  if pykey_hashable k then
    .ok ((d.filter (fun kv => !(kv.1 == k))) ++ [(k, v)])
  else .error .typeError

/-- `k in d.keys()` on the socket dict: also raises `TypeError` for an
unhashable key. -/
def dict_contains (d : SockTable) (k : PyKey) : Except PyErr Bool :=
  if pykey_hashable k then .ok (d.any (fun kv => kv.1 == k))
  else .error .typeError

/-- `del d[k]` on the socket dict. -/
def dict_del (d : SockTable) (k : PyKey) : Except PyErr SockTable :=
  if pykey_hashable k then
    if d.any (fun kv => kv.1 == k) then
      .ok (d.filter (fun kv => !(kv.1 == k)))
    else .error .keyError
  else .error .typeError

/-- `SaraN211Module._create_upd_socket` (lines 182-192):
`socket_id = self._at_action(at_command)` binds the *whole IRC list*
returned by `_at_action`, and that list becomes `sock.socket_id`. -/
def n211_create_upd_socket (st : ModState) (port : Option Nat)
    (lines : List Line) : Except PyErr USocket :=
  match at_action st false lines with
  | .error e => .error e
  | .ok (irc, _) =>
    .ok { socket_id := .list irc, source_port := port,
          able_to_receive := false }

/-- `SaraN211Module.create_socket` (lines 152-180) on the supported
kind `UDP`: create the socket object, then register it with
`self.sockets[sock.socket_id] = sock`. -/
def n211_create_socket (st : ModState) (sockets : SockTable)
    (port : Option Nat) (lines : List Line) :
    Except PyErr (USocket × SockTable) :=
  match n211_create_upd_socket st port lines with
  | .error e => .error e
  | .ok sock =>
    match dict_set sockets sock.socket_id sock with
    | .error e => .error e
    | .ok sockets2 => .ok (sock, sockets2)

/-- `SaraR4Module._create_upd_socket` (lines 639-647):
`socket_id = int(chr(response[0][-1]))` (raising `IndexError` on an
empty capture or line and `ValueError` on a non-digit), then the
socket is registered in `self.sockets`. -/
def r4_create_upd_socket (st : ModState) (sockets : SockTable)
    (port : Option Nat) (lines : List Line) :
    Except PyErr (USocket × SockTable) :=
  match at_action st true lines with
  | .error e => .error e
  | .ok (response, _) =>
    match response with
    | [] => .error .indexError
    | first :: _ =>
      match first.getLast? with
      | none => .error .indexError
      | some c =>
        if c.isDigit then
          let sock : USocket :=
            { socket_id := .int ((c.toNat : Int) - 48), source_port := port,
              able_to_receive := false }
          match dict_set sockets sock.socket_id sock with
          | .error e => .error e
          | .ok sockets2 => .ok (sock, sockets2)
        else .error .valueError

/-- `SaraR4Module` inherits `create_socket`, which registers the
returned socket a second time (idempotently). -/
def r4_create_socket (st : ModState) (sockets : SockTable)
    (port : Option Nat) (lines : List Line) :
    Except PyErr (USocket × SockTable) :=
  match r4_create_upd_socket st sockets port lines with
  | .error e => .error e
  | .ok (sock, sockets2) =>
    match dict_set sockets2 sock.socket_id sock with
    | .error e => .error e
    | .ok sockets3 => .ok (sock, sockets3)

/-- `SaraN211Module.close_socket` (lines 200-210), shared by both
variants: raise `ValueError` if the id is not a key of the table;
otherwise run the close command through `_at_action` and only then
`del` the entry.  The second component of the result is the table
after the call — in Python an exception leaves the mutated object as
it was, so on any raise the table is returned unchanged. -/
def close_socket (st : ModState) (sockets : SockTable) (socket_id : PyKey)
    (lines : List Line) : Except PyErr (List Line) × SockTable :=
  match dict_contains sockets socket_id with
  | .error e => (.error e, sockets)
  | .ok false => (.error .valueError, sockets)
  | .ok true =>
    match at_action st false lines with
    | .error e => (.error e, sockets)
    | .ok (irc, _) =>
      match dict_del sockets socket_id with
      | .error e => (.error e, sockets)
      | .ok sockets2 => (.ok irc, sockets2)

/-- C5, evaluated.  On the R4 variant the lifecycle of the claim does
hold: `create_socket` on reply `+USOCR: 3` registers id 3 and a
`close_socket(3)` confirmed by `OK` leaves the table without it.  But
on the baseline N211 variant `create_socket` can never succeed:
`_create_upd_socket` binds the whole IRC list returned by
`_at_action` as the socket id, and registering it with
`self.sockets[sock.socket_id] = sock` raises `TypeError` (a list is
unhashable), so create-then-close fails before the table is ever
touched. -/
theorem socket_lifecycle_n211_create_raises :
    (r4_create_socket initState [] none [chars "+USOCR: 3", chars "OK"] =
      .ok ({ socket_id := .int 3, source_port := none,
             able_to_receive := false },
           [(.int 3, { socket_id := .int 3, source_port := none,
                       able_to_receive := false })])) ∧
    (close_socket initState
      [(.int 3, { socket_id := .int 3, source_port := none,
                  able_to_receive := false })]
      (.int 3) [chars "OK"] = (.ok [], [])) ∧
    (n211_create_socket initState [] none [chars "0", chars "OK"] =
      .error .typeError) := by
  refine ⟨?_, ?_, ?_⟩
  · rfl
  · rfl
  · rfl

/-- C6 counterexample.  The table holds socket id 3; the module answers
the close command with `ERROR`, so `_at_action` raises `ATError`
before the `del self.sockets[socket_id]` line runs: the call fails AND
the entry is still present afterwards.  The claim says the entry is
absent even when the close command itself fails. -/
theorem close_socket_failed_close_keeps_entry :
    (close_socket initState
      [(.int 3, { socket_id := .int 3, source_port := none,
                  able_to_receive := false })]
      (.int 3) [chars "ERROR"]).1 = .error .atError ∧
    (close_socket initState
      [(.int 3, { socket_id := .int 3, source_port := none,
                  able_to_receive := false })]
      (.int 3) [chars "ERROR"]).2 =
      [(.int 3, { socket_id := .int 3, source_port := none,
                  able_to_receive := false })] ∧
    dict_contains (close_socket initState
      [(.int 3, { socket_id := .int 3, source_port := none,
                  able_to_receive := false })]
      (.int 3) [chars "ERROR"]).2 (.int 3) = .ok true := by
  refine ⟨rfl, rfl, rfl⟩

/-- C6 amended.  For a present id, `close_socket` removes the entry
exactly when the close command completes: if `_at_action` raises, the
exception propagates before the `del` and the table is unchanged; if
it returns, the IRC list is returned and the id is no longer in the
table. -/
theorem close_socket_amended (st : ModState) (sockets : SockTable)
    (id : PyKey) (lines : List Line)
    (hpresent : dict_contains sockets id = .ok true) :
    (∀ e, at_action st false lines = .error e →
      (close_socket st sockets id lines).1 = .error e ∧
      (close_socket st sockets id lines).2 = sockets) ∧
    (∀ irc st2, at_action st false lines = .ok (irc, st2) →
      (close_socket st sockets id lines).1 = .ok irc ∧
      dict_contains (close_socket st sockets id lines).2 id = .ok false) := by
  have hhash : pykey_hashable id = true := by
    cases hh : pykey_hashable id
    · unfold dict_contains at hpresent
      rw [hh] at hpresent
      simp at hpresent
    · rfl
  have hany : sockets.any (fun kv => kv.1 == id) = true := by
    unfold dict_contains at hpresent
    rw [hhash] at hpresent
    simpa using hpresent
  constructor
  · intro e he
    unfold close_socket
    simp only [hpresent, he]
    exact ⟨trivial, trivial⟩
  · intro irc st2 hok
    have hdel : dict_del sockets id =
        .ok (sockets.filter (fun kv => !(kv.1 == id))) := by
      unfold dict_del
      simp [hhash, hany]
    unfold close_socket
    simp only [hpresent, hok, hdel]
    refine ⟨trivial, ?_⟩
    unfold dict_contains
    simp only [hhash, if_true]
    have hno : (sockets.filter (fun kv => !(kv.1 == id))).any
        (fun kv => kv.1 == id) = false := by
      cases hb : (sockets.filter (fun kv => !(kv.1 == id))).any
          (fun kv => kv.1 == id)
      · rfl
      · exfalso
        obtain ⟨kv, hmem, hkv⟩ := List.any_eq_true.mp hb
        have hf := (List.mem_filter.mp hmem).2
        rw [hkv] at hf
        simp at hf
    rw [hno]
  
/-- Witness for the amended C6 at a concrete table: id 3 present, the
module confirms the close with `OK`; the call returns the (empty) IRC
list and the id is gone from the table. -/
theorem close_socket_amended_witness :
    (dict_contains
      [(.int 3, { socket_id := .int 3, source_port := none,
                  able_to_receive := false })] (.int 3) = .ok true) ∧
    (close_socket initState
      [(.int 3, { socket_id := .int 3, source_port := none,
                  able_to_receive := false })]
      (.int 3) [chars "OK"]).1 = .ok [] ∧
    dict_contains (close_socket initState
      [(.int 3, { socket_id := .int 3, source_port := none,
                  able_to_receive := false })]
      (.int 3) [chars "OK"]).2 (.int 3) = .ok false := by
  have h := (close_socket_amended initState
    [(.int 3, { socket_id := .int 3, source_port := none,
                able_to_receive := false })]
    (.int 3) [chars "OK"] rfl).2 [] initState rfl
  exact ⟨rfl, h.1, h.2⟩

/-- The radio-statistics fields of `SaraR4Module` touched by
`update_radio_statistics` (lines 607-637).  The two float fields store
the cleaned literal text whose `float()` conversion succeeded (the
numeric value of the float plays no role here). -/
structure R4Stats where
  /-- `self.radio_cell_id`. -/
  radio_cell_id : Option Line
  /-- `self.radio_earfcn` (assigned from `channel_nr`). -/
  radio_earfcn : Option Line
  /-- `self.radio_rsrq`. -/
  radio_rsrq : Option Line
  /-- `self.radio_rsrp`. -/
  radio_rsrp : Option Line
deriving DecidableEq

/-- Fresh statistics state (all fields `None`). -/
def initR4Stats : R4Stats :=
  { radio_cell_id := none, radio_earfcn := none, radio_rsrq := none,
    radio_rsrp := none }

/-- The `data` byte string computed per reply line in
`SaraR4Module.update_radio_statistics`: `data = item[7:]`, then
`data[:-2]` if it ends in `\r` else `data[:-1]`. -/
def r4_stat_data (item : Line) : Line :=
  let data := item.drop 7
  if (chars "\r").isSuffixOf data then data.take (data.length - 2)
  else data.take (data.length - 1)

/-- The three-way unpacking `a, b, c = l`, raising `ValueError` unless
the list has exactly three elements. -/
def unpack3 (l : List Line) : Except PyErr (Line × Line × Line) :=
  match l with
  | [a, b, c] => .ok (a, b, c)
  | _ => .error .valueError

/-- If the list does not have exactly three elements, `unpack3`
raises. -/
theorem unpack3_err (l : List Line) (h : l.length ≠ 3) :
    unpack3 l = .error .valueError := by
  match l with
  | [] => rfl
  | [a] => rfl
  | [a, b] => rfl
  | [a, b, c] => exact absurd rfl h
  | a :: b :: c :: d :: rest => rfl

/-- A simplified recogniser for Python `float()` literals: optional
sign, decimal mantissa with at most one point and at least one digit,
optional case-insensitive exponent with its own optional sign.  (The
exotic inputs `float` also accepts — `inf`, `nan`, surrounding
whitespace, underscores — are not produced by the module and are not
modelled.) -/
def strip_sign (l : Line) : Line :=
  match l with
  | c :: rest => if c == '+' || c == '-' then rest else c :: rest
  | [] => []

/-- Digits-only non-empty check used by the float recogniser. -/
def all_digits (l : Line) : Bool :=
  !l.isEmpty && l.all Char.isDigit

/-- Mantissa check of the float recogniser: digits with at most one
decimal point and at least one digit overall. -/
def mantissa_ok (l : Line) : Bool :=
  match l.splitOn '.' with
  | [a] => all_digits a
  | [a, b] => (!a.isEmpty || !b.isEmpty) && a.all Char.isDigit &&
      b.all Char.isDigit
  | _ => false

/-- Whether `float(s)` succeeds on this (cleaned, quote-free) text. -/
def is_py_float (l : Line) : Bool :=
  match (strip_sign l).map Char.toLower |>.splitOn 'e' with
  | [m] => mantissa_ok m
  | [m, ex] => mantissa_ok m && all_digits (strip_sign ex)
  | _ => false

/-- The `for item in result` loop of
`SaraR4Module.update_radio_statistics`: accumulates the local
variables `cell_id, channel_nr, rsrq, rsrp` (each `None` until
assigned), raising `ValueError` when a `+RSRQ`/`+RSRP` line does not
split on commas into exactly three parts. -/
def r4_stats_loop :
    List Line → Option Line → Option Line → Option Line → Option Line →
    Except PyErr (Option Line × Option Line × Option Line × Option Line)
  | [], cell, ch, q, p => .ok (cell, ch, q, p)
  | item :: rest, cell, ch, q, p =>
    let data := r4_stat_data item
    if (chars "+RSRQ").isPrefixOf item then
      match unpack3 (data.splitOn ',') with
      | .error e => .error e
      | .ok (a, b, c) => r4_stats_loop rest (some a) (some b) (some c) p
    else if (chars "+RSRP").isPrefixOf item then
      match unpack3 (data.splitOn ',') with
      | .error e => .error e
      | .ok (a, b, c) => r4_stats_loop rest (some a) (some b) q (some c)
    else r4_stats_loop rest cell ch q p

/-- `SaraR4Module.update_radio_statistics` (lines 607-637) from the
point where `result` (the captured URC list of `AT+UCGED?`) is in
hand.  The whole loop and all four field assignments sit inside one
`try`; only `ValueError` is caught (and merely logged).  The first
component is the call result (`.ok ()` when the method returns,
including the caught-`ValueError` path), the second the statistics
state after the call — mutations made before an uncaught exception
persist, so `radio_earfcn`/`radio_cell_id` keep their new values when
`rsrp is None` later raises `AttributeError`. -/
def r4_update_radio_statistics (st : R4Stats) (result : List Line) :
    Except PyErr Unit × R4Stats :=
  match r4_stats_loop result none none none none with
  | .error _ => (.ok (), st)
  | .ok (cell, ch, q, p) =>
    let st1 := { st with radio_earfcn := ch, radio_cell_id := cell }
    match p with
    | none => (.error .attributeError, st1)
    | some pv =>
      let pclean := pv.filter (fun c => !(c == '"'))
      if is_py_float pclean then
        let st2 := { st1 with radio_rsrp := some pclean }
        match q with
        | none => (.error .attributeError, st2)
        | some qv =>
          let qclean := qv.filter (fun c => !(c == '"'))
          if is_py_float qclean then
            (.ok (), { st2 with radio_rsrq := some qclean })
          else (.ok (), st2)
      else (.ok (), st1)

/-- A statistics reply line on which the parsing loop raises
`ValueError`: a `+RSRQ`/`+RSRP` line whose processed data does not
split on commas into exactly three parts. -/
def r4_stat_line_bad (item : Line) : Bool :=
  ((chars "+RSRQ").isPrefixOf item || (chars "+RSRP").isPrefixOf item) &&
    ((r4_stat_data item).splitOn ',').length != 3

/-- C7 counterexample.  The reply holds one malformed `+RSRQ` line
followed by a well-formed `+RSRP` line.  The `ValueError` from the
malformed line is indeed caught and the status query succeeds, but
the whole update is abandoned: `radio_rsrp` stays `None` even though a
well-formed `+RSRP` line was present — contradicting the claim that
the failure does not abort the update of the other fields. -/
theorem r4_stats_malformed_aborts_other_fields :
    r4_update_radio_statistics initR4Stats
      [chars "+RSRQ: x",
       chars "+RSRP: \"129\",\"4283\",\"-11.00\""] =
      (.ok (), initR4Stats) ∧
    (r4_update_radio_statistics initR4Stats
      [chars "+RSRP: \"129\",\"4283\",\"-11.00\""]).2.radio_rsrp =
      some (chars "-11.00") := by
  constructor
  · rfl
  · rfl

/-- C7 amended: on the extended variant a malformed statistics line is
caught and logged and does not fail the status query, but it abandons
the remainder of that statistics update — when the very first reply
line is malformed, the state is returned entirely unchanged. -/
theorem r4_stats_malformed_line_caught (st : R4Stats) (item : Line)
    (rest : List Line) (h : r4_stat_line_bad item = true) :
    r4_update_radio_statistics st (item :: rest) = (.ok (), st) := by
  unfold r4_stat_line_bad at h
  simp only [Bool.and_eq_true, Bool.or_eq_true, bne_iff_ne] at h
  obtain ⟨hpre, hlen⟩ := h
  have herr : unpack3 ((r4_stat_data item).splitOn ',') =
      .error .valueError := unpack3_err _ hlen
  unfold r4_update_radio_statistics
  rcases hpre with hq | hp
  · simp only [r4_stats_loop, hq, if_true, herr]
  · cases hq : (chars "+RSRQ").isPrefixOf item
    · simp only [r4_stats_loop, hq, hp, herr, Bool.false_eq_true, if_false,
        if_true]
    · simp only [r4_stats_loop, hq, if_true, herr]

/-- Witness for the amended C7: the malformed line `+RSRQ: x` in front
of a well-formed `+RSRP` line leaves an arbitrary pre-populated state
untouched while the query still succeeds. -/
theorem r4_stats_malformed_line_caught_witness :
    r4_stat_line_bad (chars "+RSRQ: x") = true ∧
    r4_update_radio_statistics
      { radio_cell_id := some (chars "7"), radio_earfcn := some (chars "8"),
        radio_rsrq := some (chars "-9.0"), radio_rsrp := some (chars "-10.0") }
      [chars "+RSRQ: x", chars "+RSRP: \"129\",\"4283\",\"-11.00\""] =
      (.ok (),
       { radio_cell_id := some (chars "7"), radio_earfcn := some (chars "8"),
         radio_rsrq := some (chars "-9.0"),
         radio_rsrp := some (chars "-10.0") }) := by
  refine ⟨by decide, ?_⟩
  exact r4_stats_malformed_line_caught _ _ _ (by decide)

/-- Outcome of `SaraR4Module.read_udp_data`. -/
inductive ReadUdpOutcome where
  /-- `return result`: the parsed field list (IP, port, length, data,
  trailing fields) when the source-IP field is non-empty. -/
  | dataFields (fields : List Line)
  /-- `return None`: the loop fell through on timeout. -/
  | noData
  /-- The supplied poll sequence was exhausted with the loop still
  running. -/
  | stillPolling
deriving DecidableEq

/-- `SaraR4Module.read_udp_data` (lines 660-681).  Each poll issues
`AT+USORF=socket,length` through `_at_action(..., capture_urc=True)`;
the first captured line is stripped of double quotes, split on commas
and the leading `+USORF: id` field dropped
(`data[0].replace(b'"', b'').split(b',')[1:]`).  A non-empty first
remaining field (the source IP) returns the fields; otherwise the
elapsed time is compared against the soft timeout and the loop either
breaks (returning `None`) or polls again.  Each element of the poll
list is the transport reply of one poll paired with the elapsed time
at the check. -/
def read_udp_data (timeout : Nat) (st : ModState) :
    List (List Line × Nat) → Except PyErr ReadUdpOutcome
  | [] => .ok .stillPolling
  | (lines, elapsed) :: rest =>
    match at_action st true lines with
    | .error e => .error e
    | .ok (data, st2) =>
      match data with
      | [] => .error .indexError
      | first :: _ =>
        match ((first.filter (fun c => !(c == '"'))).splitOn ',').drop 1 with
        | [] => .error .indexError
        | f0 :: fs =>
          if !f0.isEmpty then .ok (.dataFields (f0 :: fs))
          else if elapsed > timeout then .ok .noData
          else read_udp_data timeout st2 rest

/-- The reply of a poll whose `+USORF` answer reports an empty source:
the first captured line, quote-stripped and comma-split, has an empty
first field after the URC prefix. -/
def usorf_empty_source (first : Line) : Bool :=
  match ((first.filter (fun c => !(c == '"'))).splitOn ',').drop 1 with
  | [] => false
  | f0 :: _ => f0.isEmpty

/-- C8.  When every poll of `read_udp_data` reads a reply whose
`+USORF` answer reports an empty source (no data arrived) and some
poll happens after the soft timeout has elapsed, the operation returns
the absence value `None` (`.ok .noData`) instead of raising. -/
theorem read_udp_data_timeout_returns_none (timeout : Nat) (st : ModState)
    (polls : List (List Line × Nat))
    (hempty : ∀ p ∈ polls, ∃ first irc,
      at_action st true p.1 = .ok (first :: irc, st) ∧
      usorf_empty_source first = true)
    (hlate : ∃ p ∈ polls, p.2 > timeout) :
    read_udp_data timeout st polls = .ok .noData := by
  induction polls with
  | nil => simp at hlate
  | cons p rest ih =>
    obtain ⟨first, irc, hat, hemp⟩ := hempty p (by simp)
    have hempty2 : ∀ q ∈ rest, ∃ first irc,
        at_action st true q.1 = .ok (first :: irc, st) ∧
        usorf_empty_source first = true :=
      fun q hq => hempty q (by simp [hq])
    obtain ⟨pl, el⟩ := p
    unfold usorf_empty_source at hemp
    simp only [read_udp_data, hat]
    match hsplit : ((first.filter (fun c => !(c == '"'))).splitOn ',').drop 1 with
    | [] => rw [hsplit] at hemp; simp at hemp
    | f0 :: fs =>
      rw [hsplit] at hemp
      have hemp2 : f0.isEmpty = true := by simpa using hemp
      have h0 : (!f0.isEmpty) = false := by rw [hemp2]; rfl
      simp only [h0, Bool.false_eq_true, if_false]
      by_cases hel : el > timeout
      · simp [hel]
      · simp only [hel, if_false]
        apply ih hempty2
        rcases hlate with ⟨q, hq, hqel⟩
        rcases List.mem_cons.mp hq with hq1 | hq2
        · exfalso
          rw [hq1] at hqel
          exact hel hqel
        · exact ⟨q, hq2, hqel⟩

/-- Witness for C8: two polls both reading
`+USORF: 0,"",0,0,""` (empty source IP), the second one past the
10-unit timeout; the read returns `None`. -/
theorem read_udp_data_timeout_returns_none_witness :
    (∀ p ∈ [([chars "+USORF: 0,\"\",0,0,\"\"", chars "OK"], 5),
            ([chars "+USORF: 0,\"\",0,0,\"\"", chars "OK"], 12)],
      ∃ first irc, at_action initState true p.1 = .ok (first :: irc, initState) ∧
        usorf_empty_source first = true) ∧
    read_udp_data 10 initState
      [([chars "+USORF: 0,\"\",0,0,\"\"", chars "OK"], 5),
       ([chars "+USORF: 0,\"\",0,0,\"\"", chars "OK"], 12)] = .ok .noData := by
  have hempty : ∀ p ∈ [([chars "+USORF: 0,\"\",0,0,\"\"", chars "OK"], 5),
      ([chars "+USORF: 0,\"\",0,0,\"\"", chars "OK"], 12)],
      ∃ first irc, at_action initState true p.1 = .ok (first :: irc, initState) ∧
        usorf_empty_source first = true := by
    intro p hp
    rcases List.mem_cons.mp hp with h | hp2
    · exact ⟨chars "+USORF: 0,\"\",0,0,\"\"", [], by rw [h]; rfl, by decide⟩
    · rcases List.mem_cons.mp hp2 with h | hp3
      · exact ⟨chars "+USORF: 0,\"\",0,0,\"\"", [], by rw [h]; rfl, by decide⟩
      · simp at hp3
  refine ⟨hempty, ?_⟩
  exact read_udp_data_timeout_returns_none 10 initState _ hempty
    ⟨([chars "+USORF: 0,\"\",0,0,\"\"", chars "OK"], 12), by simp, by decide⟩

/-- One uppercase hex digit, as produced by
`binascii.hexlify(...).upper()`. -/
def hex_digit_upper (n : Nat) : Char :=
  if n < 10 then Char.ofNat (48 + n) else Char.ofNat (55 + n)

/-- `binascii.hexlify(bs).upper()`: two uppercase hex digits per
byte. -/
def hexlify_upper : List Nat → List Char
  | [] => []
  | b :: bs =>
    hex_digit_upper (b / 16) :: hex_digit_upper (b % 16) :: hexlify_upper bs

/-- Value of one hex digit as accepted by `binascii.unhexlify` /
`bytes.fromhex` (both cases). -/
def hex_val (c : Char) : Option Nat :=
  if 48 ≤ c.toNat ∧ c.toNat ≤ 57 then some (c.toNat - 48)
  else if 65 ≤ c.toNat ∧ c.toNat ≤ 70 then some (c.toNat - 55)
  else if 97 ≤ c.toNat ∧ c.toNat ≤ 102 then some (c.toNat - 87)
  else none

/-- `binascii.unhexlify` (used by `UDPSocket.recvfrom` to decode the
received hex payload): pairs of hex digits to bytes, failing on odd
length or a non-hex character. -/
def unhexlify : List Char → Option (List Nat)
  | [] => some []
  | [_] => none
  | c1 :: c2 :: rest =>
    match hex_val c1, hex_val c2, unhexlify rest with
    | some h, some l, some bs => some ((16 * h + l) :: bs)
    | _, _, _ => none

/-- UTF-8 encoding of one character (Python `str.encode()`):
1 byte below U+0080, 2 below U+0800, 3 below U+10000, else 4. -/
def utf8_encode_char (c : Char) : List Nat :=
  let n := c.toNat
  if n < 128 then [n]
  else if n < 2048 then [192 + n / 64, 128 + n % 64]
  else if n < 65536 then
    [224 + n / 4096, 128 + (n / 64) % 64, 128 + n % 64]
  else
    [240 + n / 262144, 128 + (n / 4096) % 64, 128 + (n / 64) % 64,
     128 + n % 64]

/-- `data.encode()`: UTF-8 bytes of the payload string. -/
def utf8_encode : List Char → List Nat
  | [] => []
  | c :: s => utf8_encode_char c ++ utf8_encode s

/-- The `_data` value of `send_udp_data` (N211 lines 212-221, R4 lines
649-658): `binascii.hexlify(data.encode()).upper().decode()`. -/
def send_payload_field (data : List Char) : Line :=
  hexlify_upper (utf8_encode data)

/-- The `length` value of `send_udp_data`: `len(data)`, the number of
characters of the payload string. -/
def send_length_field (data : List Char) : Nat := data.length

/-- The full `AT+USOST` command built by `SaraR4Module.send_udp_data`
(the N211 `AT+NSOST` differs only in the command name). -/
def r4_send_udp_command (socket : Nat) (host : Line) (port : Nat)
    (data : List Char) : Line :=
  chars "AT+USOST=" ++ (Nat.repr socket).data ++ chars ",\"" ++ host ++
    chars "\"," ++ (Nat.repr port).data ++ chars "," ++
    (Nat.repr (send_length_field data)).data ++ chars ",\"" ++
    send_payload_field data ++ chars "\""

/-- Decoding one encoded hex digit gives the digit back. -/
theorem hex_val_hex_digit_upper (n : Nat) (h : n < 16) :
    hex_val (hex_digit_upper n) = some n := by
  interval_cases n <;> rfl

/-- Decoding the uppercase hex encoding of any byte list returns the
bytes. -/
theorem unhexlify_hexlify_upper (bs : List Nat) (h : ∀ b ∈ bs, b < 256) :
    unhexlify (hexlify_upper bs) = some bs := by
  induction bs with
  | nil => rfl
  | cons b bs ih =>
    have hb : b < 256 := h b (by simp)
    have h1 : hex_val (hex_digit_upper (b / 16)) = some (b / 16) :=
      hex_val_hex_digit_upper _ (by omega)
    have h2 : hex_val (hex_digit_upper (b % 16)) = some (b % 16) :=
      hex_val_hex_digit_upper _ (by omega)
    have h3 := ih (fun x hx => h x (by simp [hx]))
    simp only [hexlify_upper, unhexlify, h1, h2, h3]
    have hdm : 16 * (b / 16) + b % 16 = b := by omega
    rw [hdm]

/-- ASCII characters encode to their own code as a single byte. -/
theorem utf8_encode_char_ascii (c : Char) (h : c.toNat < 128) :
    utf8_encode_char c = [c.toNat] := by
  unfold utf8_encode_char
  simp [h]

/-- For a pure-ASCII string, the UTF-8 bytes are the character
codes. -/
theorem utf8_encode_ascii (s : List Char) (h : ∀ c ∈ s, c.toNat < 128) :
    utf8_encode s = s.map Char.toNat := by
  induction s with
  | nil => rfl
  | cons c s ih =>
    simp only [utf8_encode, List.map_cons]
    rw [utf8_encode_char_ascii c (h c (by simp)),
      ih (fun x hx => h x (by simp [hx]))]
    rfl

/-- Every character occupies at least one UTF-8 byte. -/
theorem utf8_encode_char_length_pos (c : Char) :
    1 ≤ (utf8_encode_char c).length := by
  unfold utf8_encode_char
  dsimp only
  split_ifs <;> simp

/-- A character occupies exactly one UTF-8 byte iff its code is below
128. -/
theorem utf8_encode_char_length_eq_one_iff (c : Char) :
    (utf8_encode_char c).length = 1 ↔ c.toNat < 128 := by
  unfold utf8_encode_char
  dsimp only
  split_ifs with h1 h2 h3 <;> simp [h1]

/-- A character with code at least 128 occupies at least two UTF-8
bytes. -/
theorem utf8_encode_char_length_ge_two (c : Char) (h : 128 ≤ c.toNat) :
    2 ≤ (utf8_encode_char c).length := by
  unfold utf8_encode_char
  dsimp only
  split_ifs with h1 h2 h3 <;> first | omega | simp

/-- The character count never exceeds the UTF-8 byte count. -/
theorem length_le_utf8_length (s : List Char) :
    s.length ≤ (utf8_encode s).length := by
  induction s with
  | nil => simp [utf8_encode]
  | cons c s ih =>
    have := utf8_encode_char_length_pos c
    simp only [utf8_encode, List.length_cons, List.length_append]
    omega

/-- The character count equals the UTF-8 byte count iff the payload is
pure ASCII. -/
theorem length_eq_utf8_length_iff (s : List Char) :
    s.length = (utf8_encode s).length ↔ ∀ c ∈ s, c.toNat < 128 := by
  induction s with
  | nil => simp [utf8_encode]
  | cons c s ih =>
    simp only [utf8_encode, List.length_cons, List.length_append,
      List.mem_cons]
    constructor
    · intro h
      have hle := length_le_utf8_length s
      have hpos := utf8_encode_char_length_pos c
      have hc1 : (utf8_encode_char c).length = 1 := by omega
      have hs : s.length = (utf8_encode s).length := by omega
      intro x hx
      rcases hx with rfl | hx
      · exact (utf8_encode_char_length_eq_one_iff x).mp hc1
      · exact (ih.mp hs) x hx
    · intro h
      have hc1 : (utf8_encode_char c).length = 1 :=
        (utf8_encode_char_length_eq_one_iff c).mpr (h c (Or.inl rfl))
      have hs := ih.mpr (fun x hx => h x (Or.inr hx))
      omega

/-- With at least one non-ASCII character the byte count strictly
exceeds the character count. -/
theorem length_lt_utf8_length_of_nonascii (s : List Char)
    (h : ∃ c ∈ s, 128 ≤ c.toNat) :
    s.length < (utf8_encode s).length := by
  induction s with
  | nil => simp at h
  | cons c s ih =>
    simp only [utf8_encode, List.length_cons, List.length_append]
    rcases h with ⟨x, hx, hxb⟩
    rcases List.mem_cons.mp hx with rfl | hx2
    · have h2 := utf8_encode_char_length_ge_two x hxb
      have hle := length_le_utf8_length s
      omega
    · have hlt := ih ⟨x, hx2, hxb⟩
      have hpos := utf8_encode_char_length_pos c
      omega

/-- C9.  Hex round trip used by the socket layer: the send side
(`send_udp_data`) hex-encodes the UTF-8 bytes of the payload with
uppercase digits, and `binascii.unhexlify` (the receive side of
`UDPSocket.recvfrom`) decodes that encoding back to the same bytes for
any ASCII payload; in particular the payload `hi` encodes to `6869`
and `6869` decodes back to the bytes of `hi`. -/
theorem hex_roundtrip_ascii (s : List Char) (h : ∀ c ∈ s, c.toNat < 128) :
    unhexlify (send_payload_field s) = some (utf8_encode s) ∧
    send_payload_field (chars "hi") = chars "6869" ∧
    unhexlify (chars "6869") = some (utf8_encode (chars "hi")) := by
  refine ⟨?_, rfl, rfl⟩
  apply unhexlify_hexlify_upper
  intro b hb
  rw [utf8_encode_ascii s h] at hb
  obtain ⟨c, hc, rfl⟩ := List.mem_map.mp hb
  have := h c hc
  omega

/-- Witness for C9 at the payload `hi` of the claim. -/
theorem hex_roundtrip_ascii_witness :
    (∀ c ∈ chars "hi", c.toNat < 128) ∧
    unhexlify (send_payload_field (chars "hi")) =
      some (utf8_encode (chars "hi")) := by
  refine ⟨by decide, ?_⟩
  exact (hex_roundtrip_ascii (chars "hi") (by decide)).1

/-- C10.  In `send_udp_data` the `length` field interpolated into the
send command is `len(data)` — the number of characters — while the
interpolated hex payload encodes the UTF-8 bytes of `data`; hence the
declared length equals the number of bytes actually encoded iff every
character is ASCII (one byte), and understates it whenever some
character needs more than one byte. -/
theorem send_length_field_counts_chars_not_bytes (s : List Char) :
    send_length_field s = s.length ∧
    send_payload_field s = hexlify_upper (utf8_encode s) ∧
    (send_length_field s = (utf8_encode s).length ↔
      ∀ c ∈ s, c.toNat < 128) ∧
    send_length_field s ≤ (utf8_encode s).length ∧
    ((∃ c ∈ s, 128 ≤ c.toNat) →
      send_length_field s < (utf8_encode s).length) := by
  refine ⟨rfl, rfl, ?_, ?_, ?_⟩
  · exact length_eq_utf8_length_iff s
  · exact length_le_utf8_length s
  · exact length_lt_utf8_length_of_nonascii s

/-- Witness for C10: on the ASCII payload `hi` the declared length 2
matches the 2 encoded bytes; on the two-character payload `hé` the
declared length 2 understates the 3 encoded bytes. -/
theorem send_length_field_counts_chars_not_bytes_witness :
    send_length_field (chars "hi") = (utf8_encode (chars "hi")).length ∧
    send_length_field (chars "hé") < (utf8_encode (chars "hé")).length := by
  constructor
  · exact (send_length_field_counts_chars_not_bytes
      (chars "hi")).2.2.1.mpr (by decide)
  · exact (send_length_field_counts_chars_not_bytes
      (chars "hé")).2.2.2.2 ⟨'é', by decide, by decide⟩
